import Mathlib

/-
Shallow embedding of the tracer core of dd-trace-go (tracer/tracer.go).

The file tracer/tracer.go is embedded definition by definition. The parts of
the package that tracer.go uses but whose files are not available here
(span.go: Span and NewSpan; sampler.go: the two sampler policies;
buffer.go: spansBuffer; transport.go: the Transport interface) are modelled
from the specification and carry a doc comment starting with
"Modelled from the spec:".

Go's concurrency is rendered as explicit state passing: the Tracer struct
becomes a Lean structure, the buffered serviceChan channel becomes a list
holding the messages currently queued, and the background worker's select
loop becomes a step function on the Tracer state driven by an event
(timer tick, one channel receive, or the exit signal). Calls into the
Transport are recorded in an explicit call log so that theorems can speak
about what was transmitted.
-/

set_option autoImplicit false

namespace DDTrace

/-- Service mirrors `type Service struct` in tracer.go: a service name with
its application name and application type. -/
structure Service where
  Name : String
  App : String
  AppType : String
deriving DecidableEq

/-- Service.Equal mirrors `func (s Service) Equal(s2 Service) bool`:
structural equality over all three fields. -/
def Service.Equal (s s2 : Service) : Bool :=
  s.Name == s2.Name && s.App == s2.App && s.AppType == s2.AppType

/-- Modelled from the spec: the Span value object (span.go is not available).
Identity is (trace identifier, span identifier, parent identifier), all
unsigned integers, plus operation name, service name, resource name, the
"kept" boolean (sampling outcome), and a reference back to the owning
Tracer. The tracer reference is modelled as a numeric identity so that two
distinct Tracer instances can be told apart. -/
structure Span where
  Name : String
  Service : String
  Resource : String
  SpanID : Nat
  TraceID : Nat
  ParentID : Nat
  Sampled : Bool
  tracer : Nat
deriving DecidableEq

/-- Modelled from the spec: `NewSpan(name, service, resource, spanID,
traceID, parentID, tracer)` (span.go is not available). The argument order
follows the three call sites in tracer.go, where a root span is built as
`NewSpan(name, service, resource, spanID, spanID, 0, t)` and the spec fixes
a root span to have trace id = its own span id and parent id = 0. The
Sampled field starts as kept; its initial value is immaterial here because
every creation path in tracer.go overwrites it (via the sampler or by
copying the parent's outcome). -/
def NewSpan (name service resource : String) (spanID traceID parentID : Nat)
    (tracerRef : Nat) : Span :=
  { Name := name, Service := service, Resource := resource, SpanID := spanID,
    TraceID := traceID, ParentID := parentID, Sampled := true,
    tracer := tracerRef }

/-- Modelled from the spec: the two sampler policies (sampler.go is not
available): keep-all, and a probabilistic keep-rate using a uniform random
draw compared against the rate. -/
inductive Sampler where
  | all : Sampler
  | rate : Rat → Sampler
deriving DecidableEq

/-- Modelled from the spec: the boolean "kept" outcome a sampler policy
decides for a new trace. The keep-all policy keeps everything; the
probabilistic policy keeps the trace when the uniform draw falls below the
configured rate. The draw is passed in explicitly (it stands for the random
number generator). -/
def Sampler.decision : Sampler → Rat → Bool
  | Sampler.all, _ => true
  | Sampler.rate r, draw => decide (draw < r)

/-- Modelled from the spec: `sampler.Sample(span)` decides and records the
kept outcome on the span as a side effect. -/
def Sampler.sample (smp : Sampler) (draw : Rat) (s : Span) : Span :=
  { s with Sampled := smp.decision draw }

/-- Modelled from the spec: the Trace Buffer (buffer.go is not available):
an ordered sequence of finished spans with a configured maximum size. -/
structure SpansBuffer where
  maxSize : Nat
  spans : List Span
deriving DecidableEq

/-- Modelled from the spec: `push(span)` appends the span unless the buffer
has reached its configured maximum size, in which case the push is silently
dropped. -/
def SpansBuffer.Push (b : SpansBuffer) (s : Span) : SpansBuffer :=
  if b.spans.length < b.maxSize then { b with spans := b.spans ++ [s] } else b

/-- Modelled from the spec: `drain()` / `Pop()` atomically removes and
returns all currently buffered spans, leaving the buffer empty. -/
def SpansBuffer.Pop (b : SpansBuffer) : List Span × SpansBuffer :=
  (b.spans, { b with spans := [] })

/-- Modelled from the spec: the Transport collaborator (transport.go is not
available) accepts batches of traces and service maps and answers
success or failure. Its behaviour is reduced to the success flag of each of
its two calls. -/
structure Transport where
  tracesOk : Bool
  servicesOk : Bool
deriving DecidableEq

/-- A record of one call made into the Transport, so theorems can state
what was (or was not) transmitted. -/
inductive TCall where
  | sendTraces : List (List Span) → TCall
  | sendServices : List (String × Service) → TCall
deriving DecidableEq

/-- Outcome of a flush operation: Go's `nil` error, a non-nil transport
error, or the panic that a method call through a nil Transport interface
would produce. -/
inductive CallResult where
  | ok : CallResult
  | err : CallResult
  | nilDeref : CallResult
deriving DecidableEq

/-- Lookup in the `map[string]Service` of the tracer, rendered as an
association list. -/
def mapGet (m : List (String × Service)) (k : String) : Option Service :=
  match m with
  | [] => none
  | (k2, v) :: rest => if k2 = k then some v else mapGet rest k

/-- Update of the `map[string]Service`, replacing the entry for the key if
present and appending it otherwise. -/
def mapSet (m : List (String × Service)) (k : String) (v : Service) :
    List (String × Service) :=
  match m with
  | [] => [(k, v)]
  | (k2, v2) :: rest =>
    if k2 = k then (k, v) :: rest else (k2, v2) :: mapSet rest k v

/-- Tracer mirrors `type Tracer struct` in tracer.go. The serviceChan
channel is modelled by the list of Service messages currently queued on it;
the exit channel and wait group are modelled by the step function on worker
events below. `ref` is the numeric identity of this Tracer instance
(standing for its pointer), used by spans to refer back to their owner. -/
structure Tracer where
  transport : Option Transport
  sampler : Sampler
  buffer : SpansBuffer
  enabled : Bool
  services : List (String × Service)
  servicesModified : Bool
  serviceChan : List Service
  ref : Nat
deriving DecidableEq

/-- SendTraces invoked through the `t.transport` interface value. When the
interface is nil the call is a nil dereference. The result is paired with
the log of transport calls actually performed. -/
def sendTracesTo (tr : Option Transport) (traces : List (List Span)) :
    CallResult × List TCall :=
  match tr with
  | none => (CallResult.nilDeref, [])
  | some tr =>
    ((if tr.tracesOk then CallResult.ok else CallResult.err),
     [TCall.sendTraces traces])

/-- SendServices invoked through the `t.transport` interface value, as
sendTracesTo, for the service map. -/
def sendServicesTo (tr : Option Transport) (services : List (String × Service)) :
    CallResult × List TCall :=
  match tr with
  | none => (CallResult.nilDeref, [])
  | some tr =>
    ((if tr.servicesOk then CallResult.ok else CallResult.err),
     [TCall.sendServices services])

/-- NewRootSpan mirrors `func (t *Tracer) NewRootSpan`: a fresh span id
(passed in for the random generator), trace id = span id, parent id = 0,
then the sampler is applied. -/
def Tracer.NewRootSpan (t : Tracer) (name service resource : String)
    (spanID : Nat) (draw : Rat) : Span :=
  t.sampler.sample draw (NewSpan name service resource spanID spanID 0 t.ref)

/-- NewChildSpan mirrors `func (t *Tracer) NewChildSpan`. The fresh span id
and the sampler's random draw are passed in explicitly. The second
component of the result records whether `t.sampler.Sample` was invoked.
With a nil parent a defensive span is built as
`NewSpan(name, "", name, spanID, spanID, spanID, t)` and run through the
sampler; with a parent present the child is built with the parent's
Service, TraceID, SpanID as parent id and the parent's tracer reference,
and the parent's Sampled outcome is copied without invoking the sampler. -/
def Tracer.NewChildSpan (t : Tracer) (name : String) (parent : Option Span)
    (spanID : Nat) (draw : Rat) : Span × Bool :=
  match parent with
  | none =>
    (t.sampler.sample draw (NewSpan name "" name spanID spanID spanID t.ref),
     true)
  | some p =>
    ({ NewSpan name p.Service name spanID p.TraceID p.SpanID p.tracer with
       Sampled := p.Sampled },
     false)

/-- record mirrors `func (t *Tracer) record`: the finished span is pushed
into the buffer when the tracer is enabled and the span was sampled. -/
def Tracer.record (t : Tracer) (s : Span) : Tracer :=
  if t.enabled && s.Sampled then { t with buffer := t.buffer.Push s } else t

/-- The grouping loop of FlushTraces:
`traceBuffer[s.TraceID] = append(traceBuffer[s.TraceID], s)`, the Go map
rendered as an association list from trace id to the spans bearing it, in
first-appearance key order. -/
def addToGroups (gs : List (Nat × List Span)) (s : Span) :
    List (Nat × List Span) :=
  match gs with
  | [] => [(s.TraceID, [s])]
  | (k, ss) :: rest =>
    if k = s.TraceID then (k, ss ++ [s]) :: rest
    else (k, ss) :: addToGroups rest s

/-- The `traceBuffer` map built by the loop in FlushTraces. -/
def groupByTrace (spans : List Span) : List (Nat × List Span) :=
  spans.foldl addToGroups []

/-- Lookup in the trace-group association list: the spans stored under a
trace id (empty when the id has no group). -/
def findGroup (gs : List (Nat × List Span)) (k : Nat) : List Span :=
  match gs with
  | [] => []
  | (k2, ss) :: rest => if k2 = k then ss else findGroup rest k

/-- FlushTraces mirrors `func (t *Tracer) FlushTraces`: the buffer is
popped first, unconditionally; if the tracer is disabled, the transport
absent or the popped list empty, it returns nil with no transport call;
otherwise the spans are grouped by trace id and the groups are submitted in
one SendTraces call. (Debug logging has no state effect and is omitted.) -/
def Tracer.FlushTraces (t : Tracer) : Tracer × CallResult × List TCall :=
  let popped := t.buffer.Pop
  let spans := popped.1
  let t2 : Tracer := { t with buffer := popped.2 }
  if t2.enabled = false ∨ t2.transport = none ∨ spans.length = 0 then
    (t2, CallResult.ok, [])
  else
    let traces := (groupByTrace spans).map Prod.snd
    let sent := sendTracesTo t2.transport traces
    (t2, sent.1, sent.2)

/-- flushServices mirrors `func (t *Tracer) flushServices`: trivial success
when disabled or not modified; otherwise SendServices is called on the
transport (with no nil check, unlike FlushTraces) and the modified flag is
cleared only when that call succeeds. -/
def Tracer.flushServices (t : Tracer) : Tracer × CallResult × List TCall :=
  if t.enabled = false ∨ t.servicesModified = false then
    (t, CallResult.ok, [])
  else
    let sent := sendServicesTo t.transport t.services
    match sent.1 with
    | CallResult.ok => ({ t with servicesModified := false }, CallResult.ok, sent.2)
    | r => (t, r, sent.2)

/-- flush mirrors `func (t *Tracer) flush`: FlushTraces then flushServices,
each failure only logged. The call logs are concatenated in order. -/
def Tracer.flush (t : Tracer) : Tracer × List TCall :=
  let r1 := t.FlushTraces
  let r2 := r1.1.flushServices
  (r2.1, r1.2.2 ++ r2.2.2)

/-- appendService mirrors `func (t *Tracer) appendService`: store the
service and set the modified flag when the name is new or the stored entry
is not structurally equal; otherwise a no-op. -/
def Tracer.appendService (t : Tracer) (service : Service) : Tracer :=
  match mapGet t.services service.Name with
  | none =>
    { t with services := mapSet t.services service.Name service,
             servicesModified := true }
  | some s =>
    if s.Equal service then t
    else
      { t with services := mapSet t.services service.Name service,
               servicesModified := true }

/-- drainServices mirrors `func (t *Tracer) drainServices`: the
non-blocking select loop receives every Service currently queued on
serviceChan and applies appendService to each, in queue order, leaving the
channel empty. -/
def Tracer.drainServices (t : Tracer) : Tracer :=
  List.foldl Tracer.appendService { t with serviceChan := [] } t.serviceChan

/-- The three events the worker's select statement can wake up on: a flush
ticker tick, one receive from serviceChan, or the exit signal. -/
inductive WorkerEvent where
  | tick : WorkerEvent
  | serviceMsg : WorkerEvent
  | exit : WorkerEvent

/-- workerStep mirrors one iteration of the select loop in
`func (t *Tracer) worker`: a tick triggers flush; a serviceChan receive
applies appendService to the received message; the exit signal drains
serviceChan, runs a final flush and returns (the Bool is true when the
worker has exited, releasing the caller of Stop). -/
def Tracer.workerStep (t : Tracer) (e : WorkerEvent) : Tracer × Bool × List TCall :=
  match e with
  | WorkerEvent.tick =>
    let r := t.flush
    (r.1, false, r.2)
  | WorkerEvent.serviceMsg =>
    match t.serviceChan with
    | [] => (t, false, [])
    | s :: rest => (Tracer.appendService { t with serviceChan := rest } s, false, [])
  | WorkerEvent.exit =>
    let r := t.drainServices.flush
    (r.1, true, r.2)

/-- SetSampleRate mirrors `func (t *Tracer) SetSampleRate`: rate 1 installs
the keep-all sampler, a rate in [0, 1) installs the rate sampler, any other
rate only logs a warning (the Bool records whether the warning was logged)
and leaves the sampler unchanged. -/
def Tracer.SetSampleRate (t : Tracer) (sampleRate : Rat) : Tracer × Bool :=
  if sampleRate = 1 then ({ t with sampler := Sampler.all }, false)
  else if 0 ≤ sampleRate ∧ sampleRate < 1 then
    ({ t with sampler := Sampler.rate sampleRate }, false)
  else (t, true)

/-- NewTracerTransport mirrors `func NewTracerTransport`: enabled, keep-all
sampler, empty buffer of the configured capacity, empty service map and
channel. The buffer capacity and the instance identity are parameters
(the capacity constant lives in buffer.go, which is not available). -/
def NewTracerTransport (transport : Option Transport) (bufMax : Nat)
    (ref : Nat) : Tracer :=
  { transport := transport, sampler := Sampler.all,
    buffer := { maxSize := bufMax, spans := [] }, enabled := true,
    services := [], servicesModified := false, serviceChan := [],
    ref := ref }

/-- SetEnabled mirrors `func (t *Tracer) SetEnabled`. -/
def Tracer.SetEnabled (t : Tracer) (enabled : Bool) : Tracer :=
  { t with enabled := enabled }

/-- SetServiceInfo mirrors `func (t *Tracer) SetServiceInfo`: it sends the
Service onto the buffered serviceChan (modelled as enqueueing it). -/
def Tracer.SetServiceInfo (t : Tracer) (name app appType : String) : Tracer :=
  { t with serviceChan :=
      t.serviceChan ++ [{ Name := name, App := app, AppType := appType }] }

/-! ### Concrete instances used by witnesses and counterexamples -/

/-- A concrete Service value. -/
def svcA : Service := { Name := "svc", App := "app", AppType := "db" }

/-- A concrete transport on which both calls succeed. -/
def trOk : Transport := { tracesOk := true, servicesOk := true }

/-- A concrete transport on which SendServices fails. -/
def trSvcFail : Transport := { tracesOk := true, servicesOk := false }

/-- A freshly constructed concrete tracer (instance identity 1). -/
def tracer0 : Tracer := NewTracerTransport (some trOk) 10 1

/-- A concrete span owned by a different tracer instance (identity 2). -/
def spanA : Span :=
  { Name := "op", Service := "svc", Resource := "res", SpanID := 7,
    TraceID := 7, ParentID := 0, Sampled := true, tracer := 2 }

/-- An enabled tracer with a modified service map and a nil transport. -/
def tracerNilT : Tracer :=
  { transport := none, sampler := Sampler.all,
    buffer := { maxSize := 10, spans := [] }, enabled := true,
    services := [("svc", svcA)], servicesModified := true,
    serviceChan := [], ref := 3 }

/-- A second concrete Service with the same name as svcA but different
application data. -/
def svcB : Service := { Name := "svc", App := "app2", AppType := "web" }

/-- An enabled tracer with a modified service map and a working transport. -/
def tracerMod : Tracer :=
  { transport := some trOk, sampler := Sampler.all,
    buffer := { maxSize := 10, spans := [] }, enabled := true,
    services := [("svc", svcA)], servicesModified := true,
    serviceChan := [], ref := 4 }

/-- tracerMod with a transport whose SendServices call fails. -/
def tracerModFail : Tracer := { tracerMod with transport := some trSvcFail }

/-- Concrete spans bearing trace ids 1, 1 and 2. -/
def span1 : Span :=
  { Name := "a", Service := "svc", Resource := "ra", SpanID := 11,
    TraceID := 1, ParentID := 0, Sampled := true, tracer := 1 }

/-- Second span on trace 1. -/
def span1b : Span :=
  { Name := "b", Service := "svc", Resource := "rb", SpanID := 12,
    TraceID := 1, ParentID := 11, Sampled := true, tracer := 1 }

/-- A span on trace 2. -/
def span2 : Span :=
  { Name := "c", Service := "svc", Resource := "rc", SpanID := 21,
    TraceID := 2, ParentID := 0, Sampled := true, tracer := 1 }

/-- tracer0 with spans of trace ids 1, 1, 2 sitting in the buffer. -/
def tracerBuf : Tracer :=
  { tracer0 with buffer := { maxSize := 10, spans := [span1, span1b, span2] } }

/-- An enabled tracer with a pending service update queued on serviceChan
and the exit signal about to be handled. -/
def tracerQ : Tracer :=
  { transport := some trOk, sampler := Sampler.all,
    buffer := { maxSize := 10, spans := [] }, enabled := true,
    services := [], servicesModified := false,
    serviceChan := [svcA], ref := 5 }

/-! ### Theorems -/

/-- C3: for a non-nil parent, NewChildSpan returns a child whose Service
equals the parent's, whose TraceID equals the parent's, whose Sampled
outcome equals the parent's (so a kept parent yields a kept child and a
non-kept parent a non-kept child), the sampler is not invoked, and the
child's Resource is the child's own name. -/
theorem NewChildSpan_with_parent (t : Tracer) (name : String) (p : Span)
    (spanID : Nat) (draw : Rat) :
    (t.NewChildSpan name (some p) spanID draw).1.Service = p.Service ∧
    (t.NewChildSpan name (some p) spanID draw).1.TraceID = p.TraceID ∧
    (t.NewChildSpan name (some p) spanID draw).1.Sampled = p.Sampled ∧
    (t.NewChildSpan name (some p) spanID draw).2 = false ∧
    (t.NewChildSpan name (some p) spanID draw).1.Resource = name :=
  ⟨rfl, rfl, rfl, rfl, rfl⟩

/-- C10: for a non-nil parent, the child span carries the parent's tracer
reference, not the receiver's: when they differ, the child reports to the
parent's owner. -/
theorem NewChildSpan_uses_parent_tracer (t : Tracer) (name : String)
    (p : Span) (spanID : Nat) (draw : Rat) (h : p.tracer ≠ t.ref) :
    (t.NewChildSpan name (some p) spanID draw).1.tracer = p.tracer ∧
    (t.NewChildSpan name (some p) spanID draw).1.tracer ≠ t.ref :=
  ⟨rfl, h⟩

/-- C10 witness: a concrete child created through tracer0 from a parent
owned by instance 2 carries tracer reference 2. -/
theorem NewChildSpan_uses_parent_tracer_witness :
    (tracer0.NewChildSpan "child" (some spanA) 9 0).1.tracer = spanA.tracer ∧
    (tracer0.NewChildSpan "child" (some spanA) 9 0).1.tracer ≠ tracer0.ref :=
  NewChildSpan_uses_parent_tracer tracer0 "child" spanA 9 0 (by decide)

/-- C5: record pushes the span into the buffer exactly when the tracer is
enabled and the span's sampling outcome is kept, and otherwise leaves the
tracer unchanged; unfolding the buffer push, the stored list grows by the
span exactly when additionally the buffer is below capacity. -/
theorem record_spec (t : Tracer) (s : Span) :
    (t.enabled = true ∧ s.Sampled = true →
      t.record s = { t with buffer := t.buffer.Push s }) ∧
    (¬(t.enabled = true ∧ s.Sampled = true) → t.record s = t) ∧
    (t.record s).buffer.spans =
      (if t.enabled = true ∧ s.Sampled = true ∧
          t.buffer.spans.length < t.buffer.maxSize
       then t.buffer.spans ++ [s] else t.buffer.spans) := by
  unfold Tracer.record SpansBuffer.Push
  cases ht : t.enabled <;> cases hs : s.Sampled <;> simp_all
  split <;> rfl

/-- C5 witness: a kept span recorded through the enabled tracer0 is pushed;
through the disabled tracer it is discarded. -/
theorem record_spec_witness :
    tracer0.record spanA = { tracer0 with buffer := tracer0.buffer.Push spanA } ∧
    (tracer0.SetEnabled false).record spanA = tracer0.SetEnabled false :=
  ⟨(record_spec tracer0 spanA).1 ⟨rfl, rfl⟩,
   (record_spec (tracer0.SetEnabled false) spanA).2.1 (by decide)⟩

/-- C8: SetSampleRate with a rate outside [0, 1] leaves the tracer (and so
the configured sampler) unchanged and only logs a warning; rate 1 installs
the keep-all sampler; a rate in [0, 1) installs the rate sampler. -/
theorem SetSampleRate_spec (t : Tracer) (r : Rat) :
    (¬(0 ≤ r ∧ r ≤ 1) → t.SetSampleRate r = (t, true)) ∧
    (r = 1 → t.SetSampleRate r = ({ t with sampler := Sampler.all }, false)) ∧
    (0 ≤ r ∧ r < 1 →
      t.SetSampleRate r = ({ t with sampler := Sampler.rate r }, false)) := by
  unfold Tracer.SetSampleRate
  refine ⟨?_, ?_, ?_⟩
  · intro h
    rw [if_neg, if_neg]
    · rintro ⟨h0, h1⟩; exact h ⟨h0, le_of_lt h1⟩
    · rintro rfl; exact h ⟨by norm_num, le_refl 1⟩
  · rintro rfl; rw [if_pos rfl]
  · rintro ⟨h0, h1⟩
    rw [if_neg, if_pos ⟨h0, h1⟩]
    rintro rfl; exact absurd h1 (lt_irrefl 1)

/-- C8 witness: rate 3/2 is rejected with a warning and tracer0 keeps its
sampler; rate 1 installs keep-all; rate 1/2 installs the rate sampler. -/
theorem SetSampleRate_spec_witness :
    tracer0.SetSampleRate (3 / 2) = (tracer0, true) ∧
    tracer0.SetSampleRate 1 = ({ tracer0 with sampler := Sampler.all }, false) ∧
    tracer0.SetSampleRate (1 / 2) =
      ({ tracer0 with sampler := Sampler.rate (1 / 2) }, false) :=
  ⟨(SetSampleRate_spec tracer0 (3 / 2)).1 (by norm_num),
   (SetSampleRate_spec tracer0 1).2.1 rfl,
   (SetSampleRate_spec tracer0 (1 / 2)).2.2 (by norm_num)⟩

/-- C9: an enabled tracer with a modified service map and a nil transport
hits the nil dereference in flushServices (no nil check before
SendServices) instead of returning trivial success, while FlushTraces with
the same nil transport returns success with no transport call. -/
theorem flushServices_nil_transport (t : Tracer) (he : t.enabled = true)
    (hm : t.servicesModified = true) (ht : t.transport = none) :
    t.flushServices = (t, CallResult.nilDeref, []) ∧
    (t.FlushTraces).2 = (CallResult.ok, []) := by
  constructor
  · simp [Tracer.flushServices, sendServicesTo, he, hm, ht]
  · simp [Tracer.FlushTraces, SpansBuffer.Pop, ht]

/-- C9 witness: the concrete enabled and modified tracer with a nil
transport. -/
theorem flushServices_nil_transport_witness :
    tracerNilT.flushServices = (tracerNilT, CallResult.nilDeref, []) ∧
    (tracerNilT.FlushTraces).2 = (CallResult.ok, []) :=
  flushServices_nil_transport tracerNilT rfl rfl rfl

/-- C6: FlushTraces always leaves the buffer drained, and when the tracer
is disabled, the transport is absent, or the buffer was empty it returns
success with no transport call. -/
theorem FlushTraces_trivial (t : Tracer) :
    (t.FlushTraces).1.buffer.spans = [] ∧
    (t.enabled = false ∨ t.transport = none ∨ t.buffer.spans = [] →
      (t.FlushTraces).2 = (CallResult.ok, [])) := by
  constructor
  · unfold Tracer.FlushTraces
    dsimp only
    split <;> rfl
  · intro h
    rcases h with h | h | h <;>
      simp [Tracer.FlushTraces, SpansBuffer.Pop, h]

/-- C6 witness: on the freshly built tracer0 the buffer is empty, stays
drained and the transport is not called. -/
theorem FlushTraces_trivial_witness :
    (tracer0.FlushTraces).1.buffer.spans = [] ∧
    (tracer0.FlushTraces).2 = (CallResult.ok, []) :=
  ⟨(FlushTraces_trivial tracer0).1,
   (FlushTraces_trivial tracer0).2 (Or.inr (Or.inr rfl))⟩

/-- C4: flushServices on a tracer whose transport is present returns
success with no transport call when disabled or unmodified; otherwise it
hands the entire current service map to the transport in one SendServices
call, clears the modified flag exactly when that call succeeds, and on
failure leaves the tracer (flag and map) unchanged. -/
theorem flushServices_spec (t : Tracer) (tr : Transport)
    (htr : t.transport = some tr) :
    (t.enabled = false ∨ t.servicesModified = false →
      t.flushServices = (t, CallResult.ok, [])) ∧
    (t.enabled = true → t.servicesModified = true →
      (tr.servicesOk = true →
        t.flushServices =
          ({ t with servicesModified := false }, CallResult.ok,
           [TCall.sendServices t.services])) ∧
      (tr.servicesOk = false →
        t.flushServices = (t, CallResult.err, [TCall.sendServices t.services]))) := by
  constructor
  · intro h
    unfold Tracer.flushServices
    rw [if_pos h]
  · intro he hm
    constructor <;> intro hok <;>
      simp [Tracer.flushServices, sendServicesTo, he, hm, htr, hok]

/-- C4 witness: the fresh tracer0 is unmodified so flushServices is a
no-op; the modified tracerMod transmits its map and clears the flag; with
the failing transport the tracer is left unchanged and the error
surfaces. -/
theorem flushServices_spec_witness :
    tracer0.flushServices = (tracer0, CallResult.ok, []) ∧
    tracerMod.flushServices =
      ({ tracerMod with servicesModified := false }, CallResult.ok,
       [TCall.sendServices tracerMod.services]) ∧
    tracerModFail.flushServices =
      (tracerModFail, CallResult.err,
       [TCall.sendServices tracerModFail.services]) :=
  ⟨(flushServices_spec tracer0 trOk rfl).1 (Or.inr rfl),
   ((flushServices_spec tracerMod trOk rfl).2 rfl rfl).1 rfl,
   ((flushServices_spec tracerModFail trSvcFail rfl).2 rfl rfl).2 rfl⟩

/-- C1 counterexample: on the freshly constructed tracer0 (enabled,
keep-all sampler) with name "op", the nil-parent span has service "" and
not "op", the sampler IS invoked and keeps it, and after recording it a
FlushTraces call hands it to the transport — so it is transmitted. -/
theorem NewChildSpan_nil_parent_counterexample :
    (tracer0.NewChildSpan "op" none 5 0).1.Service = "" ∧
    ¬(tracer0.NewChildSpan "op" none 5 0).1.Service = "op" ∧
    (tracer0.NewChildSpan "op" none 5 0).2 = true ∧
    (tracer0.NewChildSpan "op" none 5 0).1.Sampled = true ∧
    ((tracer0.record (tracer0.NewChildSpan "op" none 5 0).1).FlushTraces).2.2 =
      [TCall.sendTraces [[(tracer0.NewChildSpan "op" none 5 0).1]]] := by
  refine ⟨rfl, by decide, rfl, rfl, by decide⟩

/-- C1 (amended): NewChildSpan with a nil parent produces a defensive span
whose trace id and parent id both equal its own fresh span id, whose
service is the empty string (not the name) and whose resource is the name;
the span IS run through the sampler (its kept outcome is the sampler's
decision for the draw), and it is transmitted under the normal rules: when
the tracer is enabled and the outcome is kept, record pushes it into the
buffer like any other span. -/
theorem NewChildSpan_nil_parent (t : Tracer) (name : String) (spanID : Nat)
    (draw : Rat) :
    (t.NewChildSpan name none spanID draw).1.TraceID = spanID ∧
    (t.NewChildSpan name none spanID draw).1.ParentID = spanID ∧
    (t.NewChildSpan name none spanID draw).1.SpanID = spanID ∧
    (t.NewChildSpan name none spanID draw).1.Service = "" ∧
    (t.NewChildSpan name none spanID draw).1.Resource = name ∧
    (t.NewChildSpan name none spanID draw).2 = true ∧
    (t.NewChildSpan name none spanID draw).1.Sampled = t.sampler.decision draw ∧
    (t.enabled = true → (t.NewChildSpan name none spanID draw).1.Sampled = true →
      t.record (t.NewChildSpan name none spanID draw).1 =
        { t with buffer := t.buffer.Push (t.NewChildSpan name none spanID draw).1 }) := by
  refine ⟨rfl, rfl, rfl, rfl, rfl, rfl, rfl, ?_⟩
  intro he hs
  simp [Tracer.record, he, hs]

/-- C1 amended-theorem witness: the concrete degenerate span of the
counterexample input is indeed pushed by record. -/
theorem NewChildSpan_nil_parent_witness :
    tracer0.record (tracer0.NewChildSpan "op" none 5 0).1 =
      { tracer0 with
        buffer := tracer0.buffer.Push (tracer0.NewChildSpan "op" none 5 0).1 } :=
  (NewChildSpan_nil_parent tracer0 "op" 5 0).2.2.2.2.2.2.2 rfl rfl


/-! ### Helper lemmas about the trace-group map -/

/-- Adding one span to the group map appends it to its trace's group and
leaves every other group unchanged. -/
theorem findGroup_addToGroups (gs : List (Nat × List Span)) (s : Span) (k : Nat) :
    findGroup (addToGroups gs s) k =
      if s.TraceID = k then findGroup gs k ++ [s] else findGroup gs k := by
  induction gs with
  | nil =>
    by_cases h : s.TraceID = k <;> simp [addToGroups, findGroup, h]
  | cons hd tl ih =>
    obtain ⟨k2, ss⟩ := hd
    by_cases h2 : k2 = s.TraceID
    · subst h2
      by_cases hk : s.TraceID = k <;> simp [addToGroups, findGroup, hk]
    · by_cases hk : k2 = k
      · subst hk
        have hks : ¬s.TraceID = k2 := fun h => h2 h.symm
        simp [addToGroups, findGroup, h2, hks]
      · simp [addToGroups, findGroup, h2, hk, ih]

/-- The keys of the group map after adding one span. -/
theorem mem_keys_addToGroups (gs : List (Nat × List Span)) (s : Span) (k : Nat) :
    k ∈ (addToGroups gs s).map Prod.fst ↔
      k ∈ gs.map Prod.fst ∨ k = s.TraceID := by
  induction gs with
  | nil => simp [addToGroups]
  | cons hd tl ih =>
    obtain ⟨k2, ss⟩ := hd
    by_cases h : k2 = s.TraceID
    · subst h
      simp [addToGroups]
      tauto
    · simp [addToGroups, h, ih]
      tauto

/-- Adding a span to a group map with pairwise distinct keys keeps the
keys pairwise distinct. -/
theorem nodup_keys_addToGroups (gs : List (Nat × List Span)) (s : Span)
    (h : (gs.map Prod.fst).Nodup) :
    ((addToGroups gs s).map Prod.fst).Nodup := by
  induction gs with
  | nil => simp [addToGroups]
  | cons hd tl ih =>
    obtain ⟨k2, ss⟩ := hd
    simp only [List.map_cons, List.nodup_cons] at h
    by_cases h2 : k2 = s.TraceID
    · simp only [addToGroups, if_pos h2, List.map_cons, List.nodup_cons]
      exact ⟨h.1, h.2⟩
    · simp only [addToGroups, if_neg h2, List.map_cons, List.nodup_cons]
      refine ⟨?_, ih h.2⟩
      rw [mem_keys_addToGroups]
      rintro (hmem | rfl)
      · exact h.1 hmem
      · exact h2 rfl

/-- The group of a trace id after the whole grouping loop is the original
group extended by exactly the spans bearing that id, in order. -/
theorem findGroup_foldl (spans : List Span) (gs : List (Nat × List Span)) (k : Nat) :
    findGroup (spans.foldl addToGroups gs) k =
      findGroup gs k ++ spans.filter (fun s => s.TraceID == k) := by
  induction spans generalizing gs with
  | nil => simp
  | cons s rest ih =>
    simp only [List.foldl_cons, ih, findGroup_addToGroups, List.filter_cons]
    by_cases h : s.TraceID = k <;> simp [h]

/-- The keys present after the whole grouping loop. -/
theorem mem_keys_foldl (spans : List Span) (gs : List (Nat × List Span)) (k : Nat) :
    k ∈ (spans.foldl addToGroups gs).map Prod.fst ↔
      k ∈ gs.map Prod.fst ∨ k ∈ spans.map Span.TraceID := by
  induction spans generalizing gs with
  | nil => simp
  | cons s rest ih =>
    simp only [List.foldl_cons, ih, mem_keys_addToGroups, List.map_cons,
      List.mem_cons]
    tauto

/-- The grouping loop keeps the keys pairwise distinct. -/
theorem nodup_keys_foldl (spans : List Span) (gs : List (Nat × List Span))
    (h : (gs.map Prod.fst).Nodup) :
    ((spans.foldl addToGroups gs).map Prod.fst).Nodup := by
  induction spans generalizing gs with
  | nil => exact h
  | cons s rest ih => exact ih _ (nodup_keys_addToGroups gs s h)

/-- In a group map with pairwise distinct keys, a stored pair is what
findGroup returns for its key. -/
theorem findGroup_of_mem (gs : List (Nat × List Span)) (k : Nat) (ss : List Span)
    (hnd : (gs.map Prod.fst).Nodup) (hmem : (k, ss) ∈ gs) :
    findGroup gs k = ss := by
  induction gs with
  | nil => cases hmem
  | cons hd tl ih =>
    obtain ⟨k2, ss2⟩ := hd
    simp only [List.map_cons, List.nodup_cons] at hnd
    rcases List.mem_cons.mp hmem with heq | hmem2
    · simp only [Prod.mk.injEq] at heq
      obtain ⟨rfl, rfl⟩ := heq
      simp [findGroup]
    · have hk : ¬k2 = k := by
        rintro rfl
        exact hnd.1 (by simpa using List.mem_map_of_mem Prod.fst hmem2)
      simp [findGroup, hk, ih hnd.2 hmem2]

/-- Every key of a group map indexes a stored pair. -/
theorem mem_of_key (gs : List (Nat × List Span)) (k : Nat)
    (h : k ∈ gs.map Prod.fst) : (k, findGroup gs k) ∈ gs := by
  induction gs with
  | nil => simp at h
  | cons hd tl ih =>
    obtain ⟨k2, ss⟩ := hd
    by_cases hk : k2 = k
    · subst hk
      simp [findGroup]
    · simp only [List.map_cons, List.mem_cons] at h
      rcases h with h | h
      · exact absurd h.symm hk
      · simp only [findGroup, if_neg hk, List.mem_cons]
        exact Or.inr (ih h)

/-! ### Helper lemmas about the service registry -/

/-- Service.Equal is structural equality. -/
theorem Service.Equal_eq_true_iff (s s2 : Service) :
    s.Equal s2 = true ↔ s = s2 := by
  obtain ⟨a, b, c⟩ := s
  obtain ⟨a2, b2, c2⟩ := s2
  simp [Service.Equal, and_assoc]

/-- Setting a key then reading it back. -/
theorem mapGet_mapSet_self (m : List (String × Service)) (k : String)
    (v : Service) : mapGet (mapSet m k v) k = some v := by
  induction m with
  | nil => simp [mapSet, mapGet]
  | cons hd tl ih =>
    obtain ⟨k2, v2⟩ := hd
    by_cases h : k2 = k <;> simp [mapSet, mapGet, h, ih]

/-- Setting a key leaves every other key's entry unchanged. -/
theorem mapGet_mapSet_other (m : List (String × Service)) (k k2 : String)
    (v : Service) (h : k ≠ k2) : mapGet (mapSet m k v) k2 = mapGet m k2 := by
  induction m with
  | nil => simp [mapSet, mapGet, h]
  | cons hd tl ih =>
    obtain ⟨k3, v3⟩ := hd
    by_cases h3 : k3 = k
    · subst h3
      simp [mapSet, mapGet, h]
    · by_cases h4 : k3 = k2
      · subst h4
        simp [mapSet, mapGet, h3]
      · simp [mapSet, mapGet, h3, h4, ih]

/-- After appendService the entry for the service's name is that service. -/
theorem appendService_get_self (t : Tracer) (s : Service) :
    mapGet (t.appendService s).services s.Name = some s := by
  unfold Tracer.appendService
  cases h : mapGet t.services s.Name with
  | none => simp [mapGet_mapSet_self]
  | some s0 =>
    by_cases he : s0.Equal s = true
    · have hs : s0 = s := (Service.Equal_eq_true_iff s0 s).mp he
      subst hs
      simp [Service.Equal_eq_true_iff, h]
    · simp [he, mapGet_mapSet_self]

/-- appendService leaves entries for other names unchanged. -/
theorem appendService_get_other (t : Tracer) (s : Service) (k : String)
    (h : k ≠ s.Name) :
    mapGet (t.appendService s).services k = mapGet t.services k := by
  unfold Tracer.appendService
  cases h2 : mapGet t.services s.Name with
  | none => simp [mapGet_mapSet_other _ _ _ _ (Ne.symm h)]
  | some s0 =>
    by_cases he : s0.Equal s = true
    · simp [he]
    · simp [he, mapGet_mapSet_other _ _ _ _ (Ne.symm h)]

/-- appendService is the identity or sets the modified flag. -/
theorem appendService_dichotomy (t : Tracer) (s : Service) :
    t.appendService s = t ∨ (t.appendService s).servicesModified = true := by
  unfold Tracer.appendService
  cases h : mapGet t.services s.Name with
  | none => exact Or.inr rfl
  | some s0 =>
    by_cases he : s0.Equal s = true
    · exact Or.inl (by simp [he])
    · exact Or.inr (by simp [he])

/-- appendService only touches the service map and the modified flag. -/
theorem appendService_fields (t : Tracer) (s : Service) :
    (t.appendService s).enabled = t.enabled ∧
    (t.appendService s).transport = t.transport ∧
    (t.appendService s).buffer = t.buffer := by
  unfold Tracer.appendService
  cases h : mapGet t.services s.Name with
  | none => exact ⟨rfl, rfl, rfl⟩
  | some s0 =>
    by_cases he : s0.Equal s = true
    · simp [he]
    · simp [he]

/-- Applying a batch of updates none of which bears the given name leaves
that name's entry unchanged. -/
theorem foldl_appendService_get_preserve (q : List Service) (t : Tracer)
    (name : String) (h : ∀ x ∈ q, x.Name ≠ name) :
    mapGet (List.foldl Tracer.appendService t q).services name =
      mapGet t.services name := by
  induction q generalizing t with
  | nil => rfl
  | cons x rest ih =>
    simp only [List.foldl_cons]
    rw [ih (t.appendService x) (fun y hy => h y (List.mem_cons_of_mem x hy)),
      appendService_get_other t x name (Ne.symm (h x (List.mem_cons_self x rest)))]

/-- After appendService s followed by updates for other names, the entry
for s's name is s. -/
theorem foldl_appendService_get_last (q2 : List Service) (t : Tracer)
    (s : Service) (h : ∀ x ∈ q2, x.Name ≠ s.Name) :
    mapGet (List.foldl Tracer.appendService (t.appendService s) q2).services
      s.Name = some s := by
  rw [foldl_appendService_get_preserve q2 (t.appendService s) s.Name h]
  exact appendService_get_self t s

/-- A batch of updates never clears the modified flag. -/
theorem foldl_appendService_modified_mono (q : List Service) (t : Tracer)
    (h : t.servicesModified = true) :
    (List.foldl Tracer.appendService t q).servicesModified = true := by
  induction q generalizing t with
  | nil => exact h
  | cons x rest ih =>
    simp only [List.foldl_cons]
    apply ih
    rcases appendService_dichotomy t x with h2 | h2
    · rw [h2]
      exact h
    · exact h2

/-- A batch of updates either changes nothing at all or leaves the
modified flag set. -/
theorem foldl_appendService_dichotomy (q : List Service) (t : Tracer) :
    List.foldl Tracer.appendService t q = t ∨
    (List.foldl Tracer.appendService t q).servicesModified = true := by
  induction q generalizing t with
  | nil => exact Or.inl rfl
  | cons x rest ih =>
    simp only [List.foldl_cons]
    rcases appendService_dichotomy t x with h | h
    · rw [h]
      exact ih t
    · exact Or.inr (foldl_appendService_modified_mono rest _ h)

/-- Batches of updates only touch the service map and the modified flag. -/
theorem foldl_appendService_fields (q : List Service) (t : Tracer) :
    (List.foldl Tracer.appendService t q).enabled = t.enabled ∧
    (List.foldl Tracer.appendService t q).transport = t.transport ∧
    (List.foldl Tracer.appendService t q).buffer = t.buffer := by
  induction q generalizing t with
  | nil => exact ⟨rfl, rfl, rfl⟩
  | cons x rest ih =>
    simp only [List.foldl_cons]
    obtain ⟨h1, h2, h3⟩ := ih (t.appendService x)
    obtain ⟨g1, g2, g3⟩ := appendService_fields t x
    exact ⟨h1.trans g1, h2.trans g2, h3.trans g3⟩

/-- FlushTraces always returns the same tracer with the buffer drained. -/
theorem FlushTraces_state (t : Tracer) :
    (t.FlushTraces).1 = { t with buffer := { t.buffer with spans := [] } } := by
  unfold Tracer.FlushTraces
  dsimp only
  split <;> rfl

/-- When enabled, modified and with a transport present, flushServices
performs exactly one SendServices call carrying the whole current map, and
never changes the map itself. -/
theorem flushServices_call (t : Tracer) (tr : Transport)
    (he : t.enabled = true) (hm : t.servicesModified = true)
    (htr : t.transport = some tr) :
    (t.flushServices).2.2 = [TCall.sendServices t.services] ∧
    (t.flushServices).1.services = t.services := by
  cases hok : tr.servicesOk <;>
    simp [Tracer.flushServices, sendServicesTo, he, hm, htr, hok]


/-- C7: when FlushTraces submits (tracer enabled, transport present,
buffer non-empty), it makes exactly one SendTraces call carrying the
groups of the drained spans; the groups are keyed by pairwise distinct
trace ids, the ids are exactly those occurring among the drained spans,
every stored group holds exactly the drained spans bearing its id (in
order), and every occurring id has its group present. -/
theorem FlushTraces_grouping (t : Tracer) (tr : Transport)
    (he : t.enabled = true) (htr : t.transport = some tr)
    (hne : t.buffer.spans ≠ []) :
    (t.FlushTraces).2.2 =
      [TCall.sendTraces ((groupByTrace t.buffer.spans).map Prod.snd)] ∧
    ((groupByTrace t.buffer.spans).map Prod.fst).Nodup ∧
    (∀ k, k ∈ (groupByTrace t.buffer.spans).map Prod.fst ↔
      k ∈ t.buffer.spans.map Span.TraceID) ∧
    (∀ k ss, (k, ss) ∈ groupByTrace t.buffer.spans →
      ss = t.buffer.spans.filter (fun s => s.TraceID == k)) ∧
    (∀ k, k ∈ t.buffer.spans.map Span.TraceID →
      (k, t.buffer.spans.filter (fun s => s.TraceID == k)) ∈
        groupByTrace t.buffer.spans) := by
  have hnd : ((groupByTrace t.buffer.spans).map Prod.fst).Nodup :=
    nodup_keys_foldl t.buffer.spans [] (by simp)
  have hmem : ∀ k, k ∈ (groupByTrace t.buffer.spans).map Prod.fst ↔
      k ∈ t.buffer.spans.map Span.TraceID := by
    intro k
    simpa [groupByTrace] using mem_keys_foldl t.buffer.spans [] k
  have hfg : ∀ k, findGroup (groupByTrace t.buffer.spans) k =
      t.buffer.spans.filter (fun s => s.TraceID == k) := by
    intro k
    simpa [groupByTrace, findGroup] using findGroup_foldl t.buffer.spans [] k
  refine ⟨?_, hnd, hmem, ?_, ?_⟩
  · simp [Tracer.FlushTraces, SpansBuffer.Pop, sendTracesTo, he, htr, hne]
  · intro k ss hm
    rw [← findGroup_of_mem (groupByTrace t.buffer.spans) k ss hnd hm]
    exact hfg k
  · intro k hk
    have := mem_of_key (groupByTrace t.buffer.spans) k ((hmem k).mpr hk)
    rwa [hfg k] at this

/-- C7 witness: with spans of trace ids 1, 1, 2 in the buffer, exactly two
groups are submitted in one call: both id-1 spans in one group, the id-2
span in the other. -/
theorem FlushTraces_grouping_witness :
    (tracerBuf.FlushTraces).2.2 =
      [TCall.sendTraces [[span1, span1b], [span2]]] ∧
    (groupByTrace tracerBuf.buffer.spans).length = 2 := by
  have h := (FlushTraces_grouping tracerBuf trOk rfl rfl (by decide)).1
  rw [h]
  exact ⟨by decide, by decide⟩

/-- C2: on the exit signal the worker first drains serviceChan (applying
every queued service update), then runs one final flush, then exits with
the stop flag set (releasing the caller of Stop). Consequently, for an
enabled tracer with a transport, a service update s queued before the
shutdown signal that differs from the stored entry for its name and is the
last queued update for that name ends up in the drained service map, and
that very map is handed to SendServices by the final flush. -/
theorem worker_exit_final_flush (t : Tracer) (tr : Transport) (s : Service)
    (q1 q2 : List Service)
    (he : t.enabled = true) (htr : t.transport = some tr)
    (hq : t.serviceChan = q1 ++ s :: q2)
    (hlast : ∀ x ∈ q2, x.Name ≠ s.Name)
    (hchanged : ∀ s0, mapGet t.services s.Name = some s0 → s0.Equal s = false) :
    t.workerStep WorkerEvent.exit =
      (t.drainServices.flush.1, true, t.drainServices.flush.2) ∧
    mapGet t.drainServices.services s.Name = some s ∧
    TCall.sendServices t.drainServices.services ∈
      (t.workerStep WorkerEvent.exit).2.2 := by
  have hdrain : t.drainServices =
      List.foldl Tracer.appendService { t with serviceChan := [] }
        t.serviceChan := rfl
  have hGet : mapGet t.drainServices.services s.Name = some s := by
    rw [hdrain, hq, List.foldl_append, List.foldl_cons]
    exact foldl_appendService_get_last q2 _ s hlast
  have hMod : t.drainServices.servicesModified = true := by
    rcases foldl_appendService_dichotomy t.serviceChan
        { t with serviceChan := [] } with hEq | hM
    · exfalso
      rw [hdrain, hEq] at hGet
      have hfalse : s.Equal s = false := hchanged s hGet
      rw [(Service.Equal_eq_true_iff s s).mpr rfl] at hfalse
      exact Bool.noConfusion hfalse
    · rw [hdrain]
      exact hM
  have hfields :=
    foldl_appendService_fields t.serviceChan { t with serviceChan := [] }
  have hEn : t.drainServices.enabled = true := by
    rw [hdrain, hfields.1]
    exact he
  have hTr : t.drainServices.transport = some tr := by
    rw [hdrain, hfields.2.1]
    exact htr
  have hft := FlushTraces_state t.drainServices
  have hEn2 : (t.drainServices.FlushTraces).1.enabled = true := by
    rw [hft]
    exact hEn
  have hMod2 : (t.drainServices.FlushTraces).1.servicesModified = true := by
    rw [hft]
    exact hMod
  have hTr2 : (t.drainServices.FlushTraces).1.transport = some tr := by
    rw [hft]
    exact hTr
  have hcall := flushServices_call (t.drainServices.FlushTraces).1 tr hEn2 hMod2 hTr2
  refine ⟨rfl, hGet, ?_⟩
  show TCall.sendServices t.drainServices.services ∈ t.drainServices.flush.2
  have hflush : t.drainServices.flush.2 =
      (t.drainServices.FlushTraces).2.2 ++
        ((t.drainServices.FlushTraces).1.flushServices).2.2 := rfl
  rw [hflush, hcall.1]
  have hsv : (t.drainServices.FlushTraces).1.services =
      t.drainServices.services := by
    rw [hft]
  rw [hsv]
  exact List.mem_append_right _ (List.mem_singleton.mpr rfl)

/-- C2 witness: the concrete tracerQ has one last-moment service update
queued; handling the exit signal puts it in the drained map and transmits
that map. -/
theorem worker_exit_final_flush_witness :
    mapGet tracerQ.drainServices.services svcA.Name = some svcA ∧
    TCall.sendServices tracerQ.drainServices.services ∈
      (tracerQ.workerStep WorkerEvent.exit).2.2 := by
  have h := worker_exit_final_flush tracerQ trOk svcA [] [] rfl rfl rfl
    (by intro x hx; cases hx) (by intro s0 h0; exact Option.noConfusion h0)
  exact ⟨h.2.1, h.2.2⟩

end DDTrace
